import Mathlib

/-!
Verification of the numeric core of the common-checker trade-history component
(src/src/TradeHistory.tsx).

The embedding models:
- the token registry (a JavaScript Map built from a token list, later entries
  overwriting earlier ones) as a list with a last-write-wins lookup;
- BN arbitrary-precision integers as Nat;
- JavaScript number arithmetic exactly over the rationals. The source performs
  parseFloat, multiplication, Math.max, addition and Number.toFixed on IEEE-754
  doubles; here these operations are modelled on the exact rational values, so
  binary floating-point rounding error is not modelled. Number.toFixed(3) is
  modelled as decimal rounding to the nearest thousandth, ties away from zero,
  rendered with exactly three fractional digits; parseFloat is modelled as the
  exact decimal value of the string.
- The base-10 string parse performed by the external bn.js library (new BN(s))
  is not part of this repository; it is modelled from the spec (section 7):
  a ParseError when the amount string is not a valid non-negative base-10
  integer, the parsed value otherwise. Thrown JavaScript exceptions are
  modelled with Except: an exception raised inside a computation makes the
  whole computation an error, exactly as an uncaught throw propagates.
-/

namespace TradeHistoryCheck

/-- ParseError: raised when an amount string is not a valid non-negative
base-10 integer (spec section 7). -/
inductive ParseError where
  | mk
deriving DecidableEq

instance {ε α : Type} [DecidableEq ε] [DecidableEq α] : DecidableEq (Except ε α) :=
  fun a b =>
    match a, b with
    | .ok x, .ok y =>
        if h : x = y then .isTrue (by rw [h]) else .isFalse (by simp [h])
    | .error e, .error f =>
        if h : e = f then .isTrue (by rw [h]) else .isFalse (by simp [h])
    | .ok _, .error _ => .isFalse (by simp)
    | .error _, .ok _ => .isFalse (by simp)

/-- Token record (interface Token, TradeHistory.tsx lines 22-27). The price is
optional; it is modelled over the exact rationals. -/
structure Token where
  address : String
  symbol : String
  decimals : Nat
  price : Option ℚ
deriving DecidableEq

/-- Trade record (interface MultiSwap, TradeHistory.tsx lines 6-15). -/
structure MultiSwap where
  origin : String
  token_in : String
  token_out : String
  path : List String
  amount_in : String
  amount_out : String
  block_num : Nat
  extrinsic_index : Nat
deriving DecidableEq

/-- The token registry: new Map(data.map(token => [token.address, token]))
(line 51). A JavaScript Map built from a list keeps the last record for each
key, so lookup returns the last matching entry. -/
def tokenMapGet (tokenMap : List Token) (address : String) : Option Token :=
  tokenMap.foldl (fun acc t => if t.address = address then some t else acc) none

/-- Numeric value of a decimal digit character. -/
def charToDigit (c : Char) : Nat := c.toNat - 48

/-- Value of a base-10 digit string, most significant digit first. -/
def parseNatDigits (cs : List Char) : Nat :=
  cs.foldl (fun a c => 10 * a + charToDigit c) 0

/-- Modelled from the spec: the base-10 parse performed by new BN(amount)
(line 100 and lines 120-121) lives in the external bn.js library, whose source
is not part of this repository. Per spec section 7, parsing fails with a
ParseError exactly when the string is not a valid non-negative base-10 integer
(it is empty or contains a sign, a decimal point, or any non-digit
character), and otherwise yields the exact integer value. -/
def parseAmount (s : String) : Except ParseError Nat :=
  if s.data ≠ [] ∧ s.data.all Char.isDigit then .ok (parseNatDigits s.data)
  else .error .mk

/-- JavaScript String.prototype.padStart(n, c): pad on the left with c up to
length n; strings already at least n long are returned unchanged. -/
def padStart (s : String) (n : Nat) (c : Char) : String :=
  String.mk (List.replicate (n - s.data.length) c ++ s.data)

/-- Numeric core of formatAmountWithToken (lines 100-108): integer part by
exact floor division, remainder zero-padded to decimals digits, fractional
string truncated to its first three characters when longer. The source
appends the token symbol afterwards (line 110); see formatAmountWithToken. -/
def formatAmountCore (n decimals : Nat) : String :=
  let divisor := 10 ^ decimals
  let integerPart := Nat.repr (n / divisor)
  let padded := padStart (Nat.repr (n % divisor)) decimals '0'
  let fractionalPart :=
    if padded.data.length > 3 then String.mk (padded.data.take 3) else padded
  integerPart ++ "." ++ fractionalPart

/-- formatAmountWithToken (lines 96-111): an address missing from the registry
returns the raw amount string unchanged; otherwise the amount is parsed and
rendered as integer part, separator, truncated fraction, space, symbol. -/
def formatAmountWithToken (tokenMap : List Token) (amount address : String) :
    Except ParseError String :=
  match tokenMapGet tokenMap address with
  | none => .ok amount
  | some token =>
      (parseAmount amount).map fun n =>
        formatAmountCore n token.decimals ++ " " ++ token.symbol

/-- Number.toFixed(3) scaled by 1000: the integer nearest to q * 1000, ties
away from zero. -/
def toFixedScaled (q : ℚ) : ℤ :=
  if 0 ≤ q then ⌊q * 1000 + 1 / 2⌋ else -⌊-q * 1000 + 1 / 2⌋

/-- Decimal rendering of a scaled-by-1000 integer with exactly three
fractional digits. -/
def renderScaled (z : ℤ) : String :=
  (if z < 0 then "-" else "") ++ Nat.repr (z.natAbs / 1000) ++ "." ++
    padStart (Nat.repr (z.natAbs % 1000)) 3 '0'

/-- Model of Number.toFixed(3) (lines 135 and 157): round to the nearest
thousandth (standard rounding, not truncation) and render with exactly three
fractional digits. -/
def toFixed3 (q : ℚ) : String := renderScaled (toFixedScaled q)

/-- The rational value denoted by the toFixed3 rendering of q. -/
def roundTo3 (q : ℚ) : ℚ := (toFixedScaled q : ℚ) / 1000

/-- Fractional digit run after the integer digits: the digits following a
decimal point, if one is next. -/
def fracDigitsOf (rest : List Char) : List Char :=
  match rest with
  | c2 :: t => if c2 = '.' then t.takeWhile Char.isDigit else []
  | [] => []

/-- Decimal value of an unsigned digits-point-digits character sequence. -/
def parseDecimalChars (body : List Char) : ℚ :=
  (parseNatDigits (body.takeWhile Char.isDigit) : ℚ) +
    (parseNatDigits (fracDigitsOf (body.dropWhile Char.isDigit)) : ℚ) /
      10 ^ (fracDigitsOf (body.dropWhile Char.isDigit)).length

/-- Model of parseFloat (line 139) on sign-digits-point-digits strings: the
exact decimal value, reading a leading minus sign, then the leading run of
digits, then a fractional digit run after a decimal point. -/
def parseDecimal (s : String) : ℚ :=
  match s.data with
  | [] => 0
  | c :: cs =>
    if c = '-' then -parseDecimalChars cs else parseDecimalChars (c :: cs)

/-- The exact rational volume of one trade, before rendering: calculateVolume
(lines 113-133). Registry misses fall back to decimals 0 and price 0; a
missing price is 0; each leg's value is the human-readable amount times the
price; the volume is the larger leg. A ParseError from the amount parse
aborts the computation. -/
def volumeValue (tokenMap : List Token) (trade : MultiSwap) :
    Except ParseError ℚ := do
  let tokenIn := tokenMapGet tokenMap trade.token_in
  let tokenOut := tokenMapGet tokenMap trade.token_out
  let priceIn : ℚ := (tokenIn.bind Token.price).getD 0
  let priceOut : ℚ := (tokenOut.bind Token.price).getD 0
  let amountIn ← parseAmount trade.amount_in
  let amountOut ← parseAmount trade.amount_out
  let divisorIn : ℚ := 10 ^ ((tokenIn.map Token.decimals).getD 0)
  let divisorOut : ℚ := 10 ^ ((tokenOut.map Token.decimals).getD 0)
  let humanAmountIn : ℚ := (amountIn : ℚ) / divisorIn
  let humanAmountOut : ℚ := (amountOut : ℚ) / divisorOut
  let valueIn := humanAmountIn * priceIn
  let valueOut := humanAmountOut * priceOut
  pure (max valueIn valueOut)

/-- calculateVolume (lines 113-136): the exact volume rendered with
toFixed(3). -/
def calculateVolume (tokenMap : List Token) (trade : MultiSwap) :
    Except ParseError String :=
  (volumeValue tokenMap trade).map toFixed3

/-- calculateTotalVolume (lines 138-141): left fold of
acc + parseFloat(calculateVolume(trade)) over the trades, starting from 0.
An uncaught ParseError thrown by any calculateVolume call aborts the whole
fold. -/
def calculateTotalVolume (tokenMap : List Token) (trades : List MultiSwap) :
    Except ParseError ℚ :=
  trades.foldlM
    (fun acc trade => (calculateVolume tokenMap trade).map fun v => acc + parseDecimal v)
    0

/-- The displayed total volume: totalVolume.toFixed(3) (line 157). -/
def totalVolumeDisplay (tokenMap : List Token) (trades : List MultiSwap) :
    Except ParseError String :=
  (calculateTotalVolume tokenMap trades).map toFixed3

/-- The integer part of a rendered decimal string: the characters before the
first separator. -/
def integerPartOf (s : String) : String :=
  String.mk (s.data.takeWhile fun c => c ≠ '.')

/-- Fixture: a registered token with 4 decimals and reference price 1. -/
def demoToken : Token := Token.mk "A" "DEMO" 4 (some 1)

/-- Fixture: a trade of 6 smallest units of the demo token (human amount
0.0006) against an unregistered token. -/
def demoTrade : MultiSwap := MultiSwap.mk "alice" "A" "X" ["A", "X"] "6" "0" 7 0

/-- Fixture registry for the aggregation-abort scenario. -/
def c8Map : List Token := [Token.mk "A" "ATOK" 0 (some 2)]

/-- Fixture: a trade whose input amount string is not a valid integer. -/
def c8Bad : MultiSwap := MultiSwap.mk "o" "A" "B" ["A", "B"] "xyz" "1" 1 0

/-- Fixture: a well-formed trade over the same registry. -/
def c8Good : MultiSwap := MultiSwap.mk "p" "A" "B" ["A", "B"] "1" "0" 2 0

end TradeHistoryCheck

namespace TradeHistoryCheck

/-! General helper lemmas: string extensionality, decimal-digit facts about
Nat.repr, padding, and evaluation of the toFixed model. -/

theorem string_data_ext (a b : String) (h : a.data = b.data) : a = b := by
  cases a; cases b; cases h; rfl

theorem toFixedScaled_eq (q : ℚ) (z : ℤ) (h0 : 0 ≤ q)
    (h1 : (z : ℚ) ≤ q * 1000 + 1 / 2) (h2 : q * 1000 + 1 / 2 < z + 1) :
    toFixedScaled q = z := by
  unfold toFixedScaled
  rw [if_pos h0]
  exact Int.floor_eq_iff.mpr ⟨h1, by exact_mod_cast h2⟩

theorem toFixed3_eq_renderScaled (q : ℚ) (z : ℤ) (h0 : 0 ≤ q)
    (h1 : (z : ℚ) ≤ q * 1000 + 1 / 2) (h2 : q * 1000 + 1 / 2 < z + 1) :
    toFixed3 q = renderScaled z := by
  unfold toFixed3
  rw [toFixedScaled_eq q z h0 h1 h2]

theorem digitChar_isDigit : ∀ m, m < 10 → (Nat.digitChar m).isDigit = true := by decide

theorem charToDigit_digitChar : ∀ m, m < 10 → charToDigit (Nat.digitChar m) = m := by decide

theorem toDigitsCore_append (b fuel n : Nat) (ds : List Char) :
    Nat.toDigitsCore b fuel n ds = Nat.toDigitsCore b fuel n [] ++ ds := by
  induction fuel generalizing n ds with
  | zero => simp [Nat.toDigitsCore]
  | succ f ih =>
    simp only [Nat.toDigitsCore]
    by_cases h : n / b = 0
    · simp [h]
    · rw [if_neg h, if_neg h, ih (n / b) (Nat.digitChar (n % b) :: ds),
        ih (n / b) [Nat.digitChar (n % b)], List.append_assoc]
      rfl

theorem toDigitsCore_all_isDigit (fuel n : Nat) (ds : List Char)
    (hds : ∀ c ∈ ds, c.isDigit = true) :
    ∀ c ∈ Nat.toDigitsCore 10 fuel n ds, c.isDigit = true := by
  induction fuel generalizing n ds with
  | zero => simpa [Nat.toDigitsCore] using hds
  | succ f ih =>
    simp only [Nat.toDigitsCore]
    have hd : ∀ c ∈ Nat.digitChar (n % 10) :: ds, c.isDigit = true := by
      intro c hc
      rcases List.mem_cons.mp hc with rfl | hmem
      · exact digitChar_isDigit _ (Nat.mod_lt _ (by norm_num))
      · exact hds c hmem
    by_cases h : n / 10 = 0
    · rw [if_pos h]; exact hd
    · rw [if_neg h]; exact ih (n / 10) _ hd

theorem repr_all_isDigit (n : Nat) : ∀ c ∈ (Nat.repr n).data, c.isDigit = true :=
  toDigitsCore_all_isDigit (n + 1) n [] (by simp)

theorem parseNatDigits_append_singleton (l : List Char) (c : Char) :
    parseNatDigits (l ++ [c]) = 10 * parseNatDigits l + charToDigit c := by
  simp [parseNatDigits, List.foldl_append]

theorem parseNatDigits_toDigitsCore (fuel n : Nat) (h : n < fuel) :
    parseNatDigits (Nat.toDigitsCore 10 fuel n []) = n := by
  induction fuel generalizing n with
  | zero => omega
  | succ f ih =>
    simp only [Nat.toDigitsCore]
    by_cases h0 : n / 10 = 0
    · rw [if_pos h0]
      have hlt : n % 10 < 10 := Nat.mod_lt _ (by norm_num)
      simp [parseNatDigits, charToDigit_digitChar (n % 10) hlt]
      omega
    · rw [if_neg h0, toDigitsCore_append, parseNatDigits_append_singleton,
        ih (n / 10) (by omega), charToDigit_digitChar (n % 10) (Nat.mod_lt _ (by norm_num))]
      omega

theorem parseNatDigits_repr (n : Nat) : parseNatDigits (Nat.repr n).data = n :=
  parseNatDigits_toDigitsCore (n + 1) n (Nat.lt_succ_self n)

theorem toDigitsCore_length_ge (b fuel n : Nat) (ds : List Char) :
    ds.length ≤ (Nat.toDigitsCore b fuel n ds).length := by
  induction fuel generalizing n ds with
  | zero => simp [Nat.toDigitsCore]
  | succ f ih =>
    simp only [Nat.toDigitsCore]
    by_cases h : n / b = 0
    · simp [h]
    · rw [if_neg h]
      calc ds.length ≤ (Nat.digitChar (n % b) :: ds).length := by simp
        _ ≤ _ := ih (n / b) _

theorem repr_ne_nil (n : Nat) : (Nat.repr n).data ≠ [] := by
  intro hc
  have h2 : ([] : List Char).length < (Nat.repr n).data.length := by
    show ([] : List Char).length < (Nat.toDigitsCore 10 (n + 1) n []).length
    simp only [Nat.toDigitsCore]
    by_cases h0 : n / 10 = 0
    · simp [h0]
    · rw [if_neg h0]
      calc ([] : List Char).length < [Nat.digitChar (n % 10)].length := by simp
        _ ≤ _ := toDigitsCore_length_ge 10 n (n / 10) _
  rw [hc] at h2
  simp at h2

theorem toDigitsCore_length_le (fuel n k : Nat) (ds : List Char)
    (hk : n < 10 ^ k) (hfuel : n < fuel) (h1 : 1 ≤ k) :
    (Nat.toDigitsCore 10 fuel n ds).length ≤ k + ds.length := by
  induction fuel generalizing n k ds with
  | zero => omega
  | succ f ih =>
    simp only [Nat.toDigitsCore]
    by_cases h0 : n / 10 = 0
    · rw [if_pos h0]; simp; omega
    · rw [if_neg h0]
      obtain ⟨m, rfl⟩ : ∃ m, k = m + 1 := ⟨k - 1, by omega⟩
      have hm : 1 ≤ m := by
        by_contra hm0
        have : m = 0 := by omega
        subst this
        simp [pow_succ, pow_zero] at hk
        omega
      have hdiv : n / 10 < 10 ^ m := by
        rw [Nat.div_lt_iff_lt_mul (by norm_num : (0 : Nat) < 10)]
        calc n < 10 ^ (m + 1) := hk
          _ = 10 ^ m * 10 := by rw [pow_succ]
      have := ih (n / 10) m (Nat.digitChar (n % 10) :: ds) hdiv (by omega) hm
      simp only [List.length_cons] at this
      omega

theorem repr_length_le (n k : Nat) (hk : n < 10 ^ k) (h1 : 1 ≤ k) :
    (Nat.repr n).data.length ≤ k := by
  have := toDigitsCore_length_le (n + 1) n k [] hk (Nat.lt_succ_self n) h1
  simpa using this

theorem padStart_data_length (s : String) (d : Nat) (c : Char) (h : s.data.length ≤ d) :
    (padStart s d c).data.length = d := by
  show (List.replicate (d - s.data.length) c ++ s.data).length = d
  simp only [List.length_append, List.length_replicate]
  omega

theorem takeWhile_append_of_all (p : Char → Bool) (l1 l2 : List Char)
    (h : ∀ c ∈ l1, p c = true) :
    (l1 ++ l2).takeWhile p = l1 ++ l2.takeWhile p := by
  induction l1 with
  | nil => rfl
  | cons c cs ih =>
    have hc := h c (List.mem_cons_self c cs)
    simp [List.takeWhile_cons, hc, ih fun x hx => h x (List.mem_cons_of_mem c hx)]

theorem dropWhile_append_of_all (p : Char → Bool) (l1 l2 : List Char)
    (h : ∀ c ∈ l1, p c = true) :
    (l1 ++ l2).dropWhile p = l2.dropWhile p := by
  induction l1 with
  | nil => rfl
  | cons c cs ih =>
    have hc := h c (List.mem_cons_self c cs)
    simp [List.dropWhile_cons, hc, ih fun x hx => h x (List.mem_cons_of_mem c hx)]

theorem takeWhile_of_all (p : Char → Bool) (l : List Char)
    (h : ∀ c ∈ l, p c = true) : l.takeWhile p = l := by
  have := takeWhile_append_of_all p l [] h
  simpa using this

theorem isDigit_ne_dot {c : Char} (h : c.isDigit = true) : (c = '.') = False := by
  simp only [eq_iff_iff, iff_false]
  intro hc
  subst hc
  simp [Char.isDigit] at h

theorem parseNatDigits_replicate_zero (k : Nat) (l : List Char) :
    parseNatDigits (List.replicate k '0' ++ l) = parseNatDigits l := by
  induction k with
  | zero => rfl
  | succ m ih =>
    show parseNatDigits ('0' :: (List.replicate m '0' ++ l)) = _
    simp only [parseNatDigits, List.foldl_cons]
    rw [show 10 * 0 + charToDigit '0' = 0 from by decide]
    exact ih

theorem padStart_repr_all_isDigit (m d : Nat) :
    ∀ c ∈ (padStart (Nat.repr m) d '0').data, c.isDigit = true := by
  intro c hc
  have hc2 : c ∈ List.replicate (d - (Nat.repr m).data.length) '0' ++ (Nat.repr m).data := hc
  rcases List.mem_append.mp hc2 with h | h
  · rw [List.eq_of_mem_replicate h]; decide
  · exact repr_all_isDigit m c h

theorem parseNatDigits_padStart_repr (m d : Nat) :
    parseNatDigits (padStart (Nat.repr m) d '0').data = m := by
  show parseNatDigits (List.replicate _ '0' ++ (Nat.repr m).data) = m
  rw [parseNatDigits_replicate_zero, parseNatDigits_repr]

theorem parseDecimalChars_body (a : Nat) :
    parseDecimalChars
      ((Nat.repr (a / 1000)).data ++ '.' :: (padStart (Nat.repr (a % 1000)) 3 '0').data) =
      (a : ℚ) / 1000 := by
  unfold parseDecimalChars
  rw [takeWhile_append_of_all _ _ _ (repr_all_isDigit _),
    dropWhile_append_of_all _ _ _ (repr_all_isDigit _)]
  have hdot : Char.isDigit '.' = false := by decide
  rw [show List.takeWhile Char.isDigit ('.' :: (padStart (Nat.repr (a % 1000)) 3 '0').data) =
      [] from by simp [List.takeWhile_cons, hdot]]
  rw [show List.dropWhile Char.isDigit ('.' :: (padStart (Nat.repr (a % 1000)) 3 '0').data) =
      '.' :: (padStart (Nat.repr (a % 1000)) 3 '0').data from by
    simp [List.dropWhile_cons, hdot]]
  rw [List.append_nil]
  simp only [fracDigitsOf]
  rw [if_pos trivial, takeWhile_of_all _ _ (padStart_repr_all_isDigit _ _)]
  rw [parseNatDigits_repr, parseNatDigits_padStart_repr]
  have hlen : (padStart (Nat.repr (a % 1000)) 3 '0').data.length = 3 :=
    padStart_data_length _ _ _ (repr_length_le _ 3 (Nat.mod_lt _ (by norm_num)) (by norm_num))
  rw [hlen]
  have key : ((a / 1000 : ℕ) : ℚ) * 1000 + ((a % 1000 : ℕ) : ℚ) = (a : ℚ) := by
    have h2 : a / 1000 * 1000 + a % 1000 = a := by omega
    exact_mod_cast congrArg (fun x : ℕ => (x : ℚ)) h2
  have h1000 : ((10 : ℚ) ^ (3 : ℕ)) = 1000 := by norm_num
  rw [h1000]
  field_simp
  linarith [key]

theorem parseDecimal_cons (s : String) (c : Char) (cs : List Char)
    (h : s.data = c :: cs) (hc : ¬c = '-') :
    parseDecimal s = parseDecimalChars (c :: cs) := by
  unfold parseDecimal
  rw [h]
  simp [hc]

theorem parseDecimal_neg_cons (s : String) (cs : List Char) (h : s.data = '-' :: cs) :
    parseDecimal s = -parseDecimalChars cs := by
  unfold parseDecimal
  rw [h]
  simp

theorem renderScaled_data_nonneg (z : ℤ) (hz : ¬z < 0) :
    (renderScaled z).data =
      (Nat.repr (z.natAbs / 1000)).data ++
        '.' :: (padStart (Nat.repr (z.natAbs % 1000)) 3 '0').data := by
  unfold renderScaled
  rw [if_neg hz]
  simp [String.data_append]

theorem renderScaled_data_neg (z : ℤ) (hz : z < 0) :
    (renderScaled z).data =
      '-' :: ((Nat.repr (z.natAbs / 1000)).data ++
        '.' :: (padStart (Nat.repr (z.natAbs % 1000)) 3 '0').data) := by
  unfold renderScaled
  rw [if_pos hz]
  simp [String.data_append]

theorem parseDecimal_renderScaled (z : ℤ) :
    parseDecimal (renderScaled z) = (z : ℚ) / 1000 := by
  by_cases hz : z < 0
  · have hd := renderScaled_data_neg z hz
    rw [parseDecimal_neg_cons _ _ hd, parseDecimalChars_body]
    have ha : ((z.natAbs : ℕ) : ℚ) = -(z : ℚ) := by
      have h1 : (z.natAbs : ℤ) = -z := by omega
      calc ((z.natAbs : ℕ) : ℚ) = (((z.natAbs : ℕ) : ℤ) : ℚ) := by rw [Int.cast_natCast]
        _ = ((-z : ℤ) : ℚ) := by rw [h1]
        _ = -(z : ℚ) := by rw [Int.cast_neg]
    rw [ha]
    ring
  · have hd := renderScaled_data_nonneg z hz
    obtain ⟨c, cs, hrd⟩ : ∃ c cs, (Nat.repr (z.natAbs / 1000)).data = c :: cs := by
      cases hh : (Nat.repr (z.natAbs / 1000)).data with
      | nil => exact absurd hh (repr_ne_nil _)
      | cons c cs => exact ⟨c, cs, rfl⟩
    have hcdig : c.isDigit = true := by
      apply repr_all_isDigit (z.natAbs / 1000)
      rw [hrd]
      exact List.mem_cons_self c cs
    have hcm : ¬c = '-' := by
      intro hcc
      subst hcc
      simp [Char.isDigit] at hcdig
    rw [hrd] at hd
    rw [parseDecimal_cons _ c (cs ++ '.' :: (padStart (Nat.repr (z.natAbs % 1000)) 3 '0').data)
      (by rw [hd]; simp) hcm]
    have hback : (c :: (cs ++ '.' :: (padStart (Nat.repr (z.natAbs % 1000)) 3 '0').data)) =
        ((Nat.repr (z.natAbs / 1000)).data ++
          '.' :: (padStart (Nat.repr (z.natAbs % 1000)) 3 '0').data) := by
      rw [hrd]
      simp
    rw [hback, parseDecimalChars_body]
    have ha : ((z.natAbs : ℕ) : ℚ) = (z : ℚ) := by
      have h1 : (z.natAbs : ℤ) = z := by omega
      calc ((z.natAbs : ℕ) : ℚ) = (((z.natAbs : ℕ) : ℤ) : ℚ) := by rw [Int.cast_natCast]
        _ = ((z : ℤ) : ℚ) := by rw [h1]
    rw [ha]

theorem parseDecimal_toFixed3 (q : ℚ) : parseDecimal (toFixed3 q) = roundTo3 q := by
  unfold toFixed3 roundTo3
  exact parseDecimal_renderScaled _

theorem totalVolume_fold (tokenMap : List Token) (trades : List MultiSwap)
    (vs : List ℚ) (acc : ℚ)
    (h : trades.mapM (volumeValue tokenMap) = .ok vs) :
    trades.foldlM
        (fun acc trade => (calculateVolume tokenMap trade).map fun v => acc + parseDecimal v)
        acc = .ok (acc + (vs.map roundTo3).sum) := by
  induction trades generalizing vs acc with
  | nil =>
    simp only [List.mapM_nil, pure, Except.pure] at h
    cases h
    simp [pure, Except.pure]
  | cons hd tl ih =>
    rw [List.mapM_cons] at h
    cases hv : volumeValue tokenMap hd with
    | error e =>
      rw [hv] at h
      simp [Except.bind, bind] at h
    | ok v =>
      rw [hv] at h
      cases hrest : tl.mapM (volumeValue tokenMap) with
      | error e =>
        rw [hrest] at h
        simp [Except.bind, bind, Except.map, pure, Except.pure] at h
      | ok vs2 =>
        rw [hrest] at h
        simp only [Except.bind, bind, Except.map, pure, Except.pure] at h
        cases h
        rw [List.foldlM_cons]
        have hcv : calculateVolume tokenMap hd = .ok (toFixed3 v) := by
          unfold calculateVolume
          rw [hv]
          rfl
        rw [hcv]
        show Except.bind (Except.ok (acc + parseDecimal (toFixed3 v))) _ = _
        rw [show Except.bind (Except.ok (acc + parseDecimal (toFixed3 v)))
            (fun b => List.foldlM _ b tl) = List.foldlM _ (acc + parseDecimal (toFixed3 v)) tl
          from rfl]
        rw [parseDecimal_toFixed3, ih vs2 _ hrest]
        congr 1
        simp [add_assoc]

theorem parseAmount_error_of_nonDigit (s : String) (c : Char) (hc : c ∈ s.data)
    (hbad : c.isDigit = false) : parseAmount s = .error .mk := by
  unfold parseAmount
  rw [if_neg]
  rintro ⟨-, h2⟩
  have := List.all_eq_true.mp h2 c hc
  rw [hbad] at this
  cases this

theorem demo_volumeValue : volumeValue [demoToken] demoTrade = .ok ((6 : ℚ) / 10000) := by
  unfold volumeValue
  rw [show parseAmount demoTrade.amount_in = .ok 6 from by decide,
    show parseAmount demoTrade.amount_out = .ok 0 from by decide]
  show Except.ok _ = _
  congr 1
  rw [show tokenMapGet [demoToken] demoTrade.token_in = some demoToken from rfl,
    show tokenMapGet [demoToken] demoTrade.token_out = none from rfl]
  simp only [Option.map_some', Option.getD_some, Option.some_bind, Option.none_bind,
    Option.map_none', Option.getD_none, demoToken]
  rw [max_eq_left]
  · push_cast
    norm_num
  · push_cast
    norm_num

/-! Claim theorems. -/

/-- C1: for every registry and every trade whose amount strings parse, the
volume operation computes each leg's value as the human-readable amount (the
raw amount divided by 10 to the token's decimals, decimals defaulting to 0 on
a registry miss) times that leg's price (0 when the price is missing or the
token unknown, so that leg contributes 0 rather than an error), takes the
larger of the two legs, and renders the result with exactly three fractional
digits by standard rounding applied at this final step only. -/
theorem c1_volume_formula (tokenMap : List Token) (trade : MultiSwap)
    (aIn aOut : Nat)
    (hIn : parseAmount trade.amount_in = .ok aIn)
    (hOut : parseAmount trade.amount_out = .ok aOut) :
    calculateVolume tokenMap trade = .ok (toFixed3 (max
      ((aIn : ℚ) / 10 ^ ((tokenMapGet tokenMap trade.token_in).map Token.decimals).getD 0 *
        ((tokenMapGet tokenMap trade.token_in).bind Token.price).getD 0)
      ((aOut : ℚ) / 10 ^ ((tokenMapGet tokenMap trade.token_out).map Token.decimals).getD 0 *
        ((tokenMapGet tokenMap trade.token_out).bind Token.price).getD 0))) := by
  simp only [calculateVolume, volumeValue, hIn, hOut]
  rfl

/-- Witness for C1: a trade of 1.0006 human units at price 1 against an
unknown token rounds up to 1.001 at the final rendering step. -/
theorem c1_volume_formula_witness :
    parseAmount "10006" = .ok 10006 ∧ parseAmount "0" = .ok 0 ∧
      calculateVolume [Token.mk "T" "TOK" 4 (some 1)]
        (MultiSwap.mk "o" "T" "U" ["T", "U"] "10006" "0" 3 0) = .ok "1.001" := by
  refine ⟨by decide, by decide, ?_⟩
  rw [c1_volume_formula _ _ 10006 0 (by decide) (by decide)]
  have e1 : tokenMapGet [Token.mk "T" "TOK" 4 (some 1)]
      (MultiSwap.mk "o" "T" "U" ["T", "U"] "10006" "0" 3 0).token_in =
      some (Token.mk "T" "TOK" 4 (some 1)) := rfl
  have e2 : tokenMapGet [Token.mk "T" "TOK" 4 (some 1)]
      (MultiSwap.mk "o" "T" "U" ["T", "U"] "10006" "0" 3 0).token_out = none := rfl
  rw [e1, e2]
  simp only [Option.map_some', Option.getD_some, Option.some_bind, Option.none_bind,
    Option.map_none', Option.getD_none]
  have hmax : max (((10006 : ℕ) : ℚ) / 10 ^ (4 : ℕ) * 1) (((0 : ℕ) : ℚ) / 10 ^ (0 : ℕ) * 0) =
      10006 / 10000 := by
    rw [max_eq_left] <;> push_cast <;> norm_num
  rw [hmax, toFixed3_eq_renderScaled _ 1001 (by norm_num) (by norm_num) (by norm_num)]
  decide

/-- C2: the displayed total volume over trades whose volumes all compute is
the 3-decimal rendering of the sum of the per-trade values each already
rounded to 3 decimals (double rounding preserved); over the empty trade list
it is 0.000; and on a concrete pair of trades the double-rounded total 0.002
differs from the 3-decimal rendering 0.001 of the exact unrounded sum. -/
theorem c2_total_is_sum_of_rounded :
    (∀ (tokenMap : List Token) (trades : List MultiSwap) (vs : List ℚ),
        trades.mapM (volumeValue tokenMap) = .ok vs →
        totalVolumeDisplay tokenMap trades = .ok (toFixed3 ((vs.map roundTo3).sum))) ∧
      (∀ tokenMap : List Token, totalVolumeDisplay tokenMap [] = .ok "0.000") ∧
      totalVolumeDisplay [demoToken] [demoTrade, demoTrade] = .ok "0.002" ∧
      toFixed3 ((6 : ℚ) / 10000 + (6 : ℚ) / 10000) = "0.001" := by
  have hround : roundTo3 ((6 : ℚ) / 10000) = 1 / 1000 := by
    unfold roundTo3
    rw [toFixedScaled_eq _ 1 (by norm_num) (by norm_num) (by norm_num)]
    norm_num
  refine ⟨?_, ?_, ?_, ?_⟩
  · intro tokenMap trades vs h
    unfold totalVolumeDisplay calculateTotalVolume
    rw [totalVolume_fold tokenMap trades vs 0 h]
    simp [Except.map, zero_add]
  · intro tokenMap
    show Except.ok (toFixed3 0) = Except.ok "0.000"
    rw [toFixed3_eq_renderScaled 0 0 le_rfl (by norm_num) (by norm_num)]
    decide
  · have hmapM : [demoTrade, demoTrade].mapM (volumeValue [demoToken]) =
        .ok [(6 : ℚ) / 10000, (6 : ℚ) / 10000] := by
      rw [List.mapM_cons, List.mapM_cons, List.mapM_nil, demo_volumeValue]
      rfl
    unfold totalVolumeDisplay calculateTotalVolume
    rw [totalVolume_fold [demoToken] [demoTrade, demoTrade] [(6 : ℚ) / 10000, (6 : ℚ) / 10000]
      0 hmapM]
    show Except.ok (toFixed3 _) = _
    rw [show (0 : ℚ) + (([(6 : ℚ) / 10000, (6 : ℚ) / 10000].map roundTo3).sum) = 2 / 1000 from by
      simp [hround]; norm_num]
    rw [toFixed3_eq_renderScaled _ 2 (by norm_num) (by norm_num) (by norm_num)]
    decide
  · rw [show (6 : ℚ) / 10000 + (6 : ℚ) / 10000 = 12 / 10000 from by norm_num]
    rw [toFixed3_eq_renderScaled _ 1 (by norm_num) (by norm_num) (by norm_num)]
    decide

/-- Witness for C2: a one-trade aggregation evaluated concretely. -/
theorem c2_witness :
    [demoTrade].mapM (volumeValue [demoToken]) = .ok [(6 : ℚ) / 10000] ∧
      totalVolumeDisplay [demoToken] [demoTrade] = .ok "0.001" := by
  have hmapM : [demoTrade].mapM (volumeValue [demoToken]) = .ok [(6 : ℚ) / 10000] := by
    rw [List.mapM_cons, List.mapM_nil, demo_volumeValue]
    rfl
  refine ⟨hmapM, ?_⟩
  rw [c2_total_is_sum_of_rounded.1 [demoToken] [demoTrade] [(6 : ℚ) / 10000] hmapM]
  have hround : roundTo3 ((6 : ℚ) / 10000) = 1 / 1000 := by
    unfold roundTo3
    rw [toFixedScaled_eq _ 1 (by norm_num) (by norm_num) (by norm_num)]
    norm_num
  rw [show (([(6 : ℚ) / 10000].map roundTo3).sum) = 1 / 1000 from by simp [hround]]
  rw [toFixed3_eq_renderScaled _ 1 (by norm_num) (by norm_num) (by norm_num)]
  decide

/-- Counterexample to C3: for a registered token with 0 decimals the formatter
does not return the integer string unchanged; format of the raw string 007
yields 7.0 SYM, which normalizes the integer digits and still contains the
separator and a fractional digit. -/
theorem c3_counterexample :
    formatAmountWithToken [Token.mk "A" "SYM" 0 none] "007" "A" = .ok "7.0 SYM" ∧
      ("7.0 SYM" : String) ≠ "007" ∧ '.' ∈ ("7.0 SYM" : String).data :=
  ⟨by decide, by decide, by decide⟩

/-- C3 amended: with decimals equal to 0 the fractional step is not skipped;
the remainder is 0, padding to width 0 leaves the single digit 0, and the
formatter returns the canonical decimal rendering of the parsed amount
followed by the separator, the digit 0, a space, and the symbol. -/
theorem c3_decimals_zero_amended (tokenMap : List Token) (amount address : String)
    (token : Token) (n : Nat)
    (htok : tokenMapGet tokenMap address = some token)
    (hdec : token.decimals = 0)
    (hparse : parseAmount amount = .ok n) :
    formatAmountWithToken tokenMap amount address =
      .ok (Nat.repr n ++ ".0 " ++ token.symbol) := by
  simp only [formatAmountWithToken, htok, hparse, Except.map]
  rw [hdec]
  congr 1
  apply string_data_ext
  have h1 : ("." : String).data = ['.'] := rfl
  have h2 : ("0" : String).data = ['0'] := rfl
  have h3 : (" " : String).data = [' '] := rfl
  have h4 : (".0 " : String).data = ['.', '0', ' '] := rfl
  have h5 : Nat.repr (0 : Nat) = "0" := rfl
  simp [formatAmountCore, padStart, Nat.div_one, Nat.mod_one, pow_zero, h1, h2, h3, h4, h5,
    String.data_append]

/-- Witness for the amended C3. -/
theorem c3_amended_witness :
    tokenMapGet [Token.mk "A" "SYM" 0 none] "A" = some (Token.mk "A" "SYM" 0 none) ∧
      parseAmount "007" = .ok 7 ∧
      formatAmountWithToken [Token.mk "A" "SYM" 0 none] "007" "A" = .ok "7.0 SYM" :=
  ⟨rfl, by decide, by
    have h := c3_decimals_zero_amended [Token.mk "A" "SYM" 0 none] "007" "A"
      (Token.mk "A" "SYM" 0 none) 7 rfl rfl (by decide)
    rw [h]
    decide⟩

/-- C4: for positive decimals the formatter renders the remainder left-padded
with zeros to exactly decimals digits and keeps only the first three
characters of that padded string, never rounding; in particular the amount 1
with 18 decimals formats as 0.000 and 10 to the 18 formats as 1.000. -/
theorem c4_fraction_truncation :
    (∀ n d : Nat, 0 < d →
        formatAmountCore n d =
          Nat.repr (n / 10 ^ d) ++ "." ++
            String.mk ((padStart (Nat.repr (n % 10 ^ d)) d '0').data.take 3) ∧
          (padStart (Nat.repr (n % 10 ^ d)) d '0').data.length = d) ∧
      formatAmountCore 1 18 = "0.000" ∧
      formatAmountCore 1000000000000000000 18 = "1.000" := by
  refine ⟨fun n d hd => ?_, by decide, by decide⟩
  have hmod : n % 10 ^ d < 10 ^ d := Nat.mod_lt _ (Nat.pos_pow_of_pos d (by norm_num))
  have hlen : (Nat.repr (n % 10 ^ d)).data.length ≤ d := repr_length_le _ _ hmod hd
  have hpadlen : (padStart (Nat.repr (n % 10 ^ d)) d '0').data.length = d :=
    padStart_data_length _ _ _ hlen
  refine ⟨?_, hpadlen⟩
  simp only [formatAmountCore]
  by_cases h3 : (padStart (Nat.repr (n % 10 ^ d)) d '0').data.length > 3
  · rw [if_pos h3]
  · rw [if_neg h3]
    congr 1
    apply string_data_ext
    rw [List.take_of_length_le (by omega)]

/-- Witness for C4 at the spec's own example format(1234567, 3) = 1234.567. -/
theorem c4_witness : 0 < 3 ∧ formatAmountCore 1234567 3 = "1234.567" :=
  ⟨by decide, by
    have h := (c4_fraction_truncation.1 1234567 3 (by decide)).1
    rw [h]
    decide⟩

/-- C5: for every amount and every decimals count, the integer part of the
formatted string (the characters before the first separator) is exactly the
decimal rendering of the floor quotient of the amount by 10 to the decimals,
computed with exact arbitrary-precision natural-number division. -/
theorem c5_integer_part_exact (a d : Nat) :
    integerPartOf (formatAmountCore a d) = Nat.repr (a / 10 ^ d) := by
  apply string_data_ext
  simp only [integerPartOf, formatAmountCore, String.data_append, List.append_assoc]
  have hall : ∀ c ∈ (Nat.repr (a / 10 ^ d)).data, (fun c => decide ¬c = '.') c = true := by
    intro c hc
    have h1 := repr_all_isDigit (a / 10 ^ d) c hc
    simp only [decide_eq_true_eq]
    intro hcc
    subst hcc
    simp [Char.isDigit] at h1
  rw [takeWhile_append_of_all _ _ _ hall]
  simp [List.takeWhile_cons]

/-- C6: a trade whose input and output tokens are both absent from the
registry is not an error: both prices fall back to 0, both legs value 0, and
the rendered volume is 0.000. -/
theorem c6_unknown_tokens (tokenMap : List Token) (trade : MultiSwap) (aIn aOut : Nat)
    (hNoIn : tokenMapGet tokenMap trade.token_in = none)
    (hNoOut : tokenMapGet tokenMap trade.token_out = none)
    (hIn : parseAmount trade.amount_in = .ok aIn)
    (hOut : parseAmount trade.amount_out = .ok aOut) :
    calculateVolume tokenMap trade = .ok "0.000" := by
  simp only [calculateVolume, volumeValue, hNoIn, hNoOut, hIn, hOut, Option.none_bind,
    Option.getD_none, Option.map_none', mul_zero, max_self]
  have h3 : toFixed3 0 = renderScaled 0 :=
    toFixed3_eq_renderScaled 0 0 le_rfl (by norm_num) (by norm_num)
  show Except.ok (toFixed3 0) = Except.ok "0.000"
  rw [h3]
  decide

/-- Witness for C6: an empty registry and a concrete trade. -/
theorem c6_witness :
    tokenMapGet [] "A" = none ∧ parseAmount "5" = .ok 5 ∧
      calculateVolume [] (MultiSwap.mk "o" "A" "B" ["A", "B"] "5" "9" 1 0) = .ok "0.000" :=
  ⟨by decide, by decide,
    c6_unknown_tokens [] _ 5 9 (by decide) (by decide) (by decide) (by decide)⟩

/-- C7: the spec-modelled amount parse never fails on a nonempty all-digit
string and yields its exact value; it fails with a ParseError on any string
containing a non-digit character (which covers signs and decimal points); and
when the token is registered that ParseError propagates out of the
formatter. -/
theorem c7_parse_policy :
    (∀ s : String, s.data ≠ [] → s.data.all Char.isDigit = true →
        parseAmount s = .ok (parseNatDigits s.data)) ∧
      (∀ (s : String) (c : Char), c ∈ s.data → c.isDigit = false →
        parseAmount s = .error .mk) ∧
      (∀ (tokenMap : List Token) (s address : String) (token : Token) (c : Char),
        tokenMapGet tokenMap address = some token → c ∈ s.data → c.isDigit = false →
        formatAmountWithToken tokenMap s address = .error .mk) := by
  refine ⟨?_, ?_, ?_⟩
  · intro s h1 h2
    unfold parseAmount
    rw [if_pos ⟨h1, h2⟩]
  · exact parseAmount_error_of_nonDigit
  · intro tokenMap s address token c htok hc hbad
    unfold formatAmountWithToken
    rw [htok, parseAmount_error_of_nonDigit s c hc hbad]
    rfl

/-- Witness for C7: a valid digit string parses; a sign, a decimal point and
a plus sign each cause a ParseError, also through the formatter. -/
theorem c7_witness :
    parseAmount "120" = .ok 120 ∧ parseAmount "-5" = .error .mk ∧
      parseAmount "1.5" = .error .mk ∧
      formatAmountWithToken [Token.mk "A" "ATOK" 2 none] "+7" "A" = .error .mk := by
  refine ⟨?_, ?_, ?_, ?_⟩
  · have h := c7_parse_policy.1 "120" (by decide) (by decide)
    rw [h]
    decide
  · exact c7_parse_policy.2.1 "-5" '-' (by decide) (by decide)
  · exact c7_parse_policy.2.1 "1.5" '.' (by decide) (by decide)
  · exact c7_parse_policy.2.2 [Token.mk "A" "ATOK" 2 none] "+7" "A"
      (Token.mk "A" "ATOK" 2 none) '+' rfl (by decide) (by decide)

/-- Counterexample to C8: with one malformed trade followed by one good trade
(whose own volume computes, alone or aggregated), the aggregation over the
whole list is an error: the ParseError aborts the entire pass instead of
skipping the failing record and completing over the remaining trades. -/
theorem c8_counterexample :
    calculateVolume c8Map c8Bad = .error .mk ∧
      (calculateVolume c8Map c8Good).isOk = true ∧
      (calculateTotalVolume c8Map [c8Good]).isOk = true ∧
      calculateTotalVolume c8Map [c8Bad, c8Good] = .error .mk :=
  ⟨by decide, by decide, by decide, by decide⟩

/-- C8 amended: a ParseError raised while computing any one trade's volume
aborts the whole aggregation; calculateTotalVolume returns the error and no
value is produced for the remaining trades. -/
theorem c8_parse_error_aborts_aggregation (tokenMap : List Token)
    (trades : List MultiSwap) (trade : MultiSwap) (hmem : trade ∈ trades)
    (herr : calculateVolume tokenMap trade = .error .mk) :
    calculateTotalVolume tokenMap trades = .error .mk := by
  unfold calculateTotalVolume
  suffices h : ∀ l : List MultiSwap, trade ∈ l → ∀ acc : ℚ,
      l.foldlM (fun acc trade => (calculateVolume tokenMap trade).map fun v =>
        acc + parseDecimal v) acc = .error .mk from h trades hmem 0
  intro l hl
  induction l with
  | nil => cases hl
  | cons hd tl ih =>
    intro acc
    rw [List.foldlM_cons]
    rcases List.mem_cons.mp hl with rfl | htl
    · rw [herr]
      rfl
    · cases hcv : calculateVolume tokenMap hd with
      | error e =>
        cases e
        rfl
      | ok v =>
        show Except.bind (Except.ok (acc + parseDecimal v)) _ = _
        exact ih htl _

/-- Witness for the amended C8. -/
theorem c8_witness :
    c8Bad ∈ [c8Bad, c8Good] ∧ calculateVolume c8Map c8Bad = .error .mk ∧
      calculateTotalVolume c8Map [c8Bad, c8Good] = .error .mk :=
  ⟨by decide, by decide,
    c8_parse_error_aborts_aggregation c8Map [c8Bad, c8Good] c8Bad (by decide) (by decide)⟩

/-- C9: when the address is absent from the registry, the formatter returns
the raw amount string completely unchanged; no parsing, division, separator,
truncation or symbol suffix is applied. -/
theorem c9_registry_miss (tokenMap : List Token) (amount address : String)
    (h : tokenMapGet tokenMap address = none) :
    formatAmountWithToken tokenMap amount address = .ok amount := by
  simp only [formatAmountWithToken, h]

/-- Witness for C9: even a non-numeric amount string is returned verbatim on
a registry miss. -/
theorem c9_witness :
    tokenMapGet [Token.mk "B" "BTK" 6 none] "Z" = none ∧
      formatAmountWithToken [Token.mk "B" "BTK" 6 none] "12.5x" "Z" = .ok "12.5x" :=
  ⟨by decide, c9_registry_miss _ _ _ (by decide)⟩

/-- C10: the volume of a trade depends only on its amount strings, its input
and output token addresses, and the registry entries at those two addresses;
two trades agreeing on those, under registries agreeing on those lookups,
get identical volumes regardless of origin, path, block number, extrinsic
index, or other registry entries. -/
theorem c10_no_other_inputs (r1 r2 : List Token) (t1 t2 : MultiSwap)
    (hai : t1.amount_in = t2.amount_in) (hao : t1.amount_out = t2.amount_out)
    (_hti : t1.token_in = t2.token_in) (_hto : t1.token_out = t2.token_out)
    (hli : tokenMapGet r1 t1.token_in = tokenMapGet r2 t2.token_in)
    (hlo : tokenMapGet r1 t1.token_out = tokenMapGet r2 t2.token_out) :
    calculateVolume r1 t1 = calculateVolume r2 t2 := by
  unfold calculateVolume volumeValue
  rw [hai, hao, hli, hlo]

/-- Witness for C10: trades differing in origin, path, block number and
extrinsic index, and registries differing in an extra unrelated entry, give
the same volume. -/
theorem c10_witness :
    ("alice" : String) ≠ "bob" ∧ (5 : Nat) ≠ 9 ∧
      calculateVolume [Token.mk "A" "TOK" 2 (some 3), Token.mk "X" "XTK" 1 (some 7)]
          (MultiSwap.mk "alice" "A" "B" ["A", "C", "B"] "120" "4" 5 0) =
        calculateVolume [Token.mk "A" "TOK" 2 (some 3)]
          (MultiSwap.mk "bob" "A" "B" ["A", "B"] "120" "4" 9 2) :=
  ⟨by decide, by decide, c10_no_other_inputs _ _ _ _ rfl rfl rfl rfl rfl rfl⟩

end TradeHistoryCheck
